import Mathlib

/-!
Shallow embedding of `fmriprep/workflows/bold/util.py`.

The Python module builds three nipype workflow templates:
`init_bold_reference_wf`, `init_enhance_and_skullstrip_bold_wf` and
`init_skullstrip_bold_wf`.  Each builder instantiates named nodes (each
wrapping one external-tool interface with fixed options and resource
hints), optionally embeds a sub-workflow, and declares directed
connections `(source node, source port) → (destination node, destination
port)`.  We embed the graph-structural content of the module: node names,
interface configurations, resource hints, literal input bindings and the
exact connection lists, in source order.

The workflow engine itself (`niworkflows.nipype.pipeline.engine`) is not
part of this repository's sources; where a claim is about the engine
(planning, cached execution) we model the engine from the specification,
marked `Modelled from the spec:` on the definition.
-/

/-- A directed connection `(source node, source port) → (destination node,
destination port)`, as declared by `workflow.connect` in the source. -/
structure Conn where
  src : String
  srcPort : String
  dst : String
  dstPort : String
deriving DecidableEq

/-- The interface configurations instantiated by the source module, each
constructor one wrapped external-tool class with exactly the options the
source passes to it.  `identityInterface` is nipype's pass-through
`niu.IdentityInterface(fields=...)` used for boundary nodes. -/
inductive Iface where
  | identityInterface (fields : List String)
  | validateImage
  | estimateReferenceImage
  | maskEPI (upper_cutoff : ℚ) (opening : Nat) (no_sanitize : Bool)
  | n4BiasFieldCorrection (dimension : Nat) (copy_header : Bool)
  | bet (frac : ℚ) (mask : Bool)
  | dilateImage (operation : String) (kernel_shape : String)
      (kernel_size : ℚ) (internal_datatype : String)
  | applyMask
  | unifize (t2 : Bool) (outputtype : String) (args : String) (out_file : String)
  | copyXForm
  | automask (dilate : Nat) (outputtype : String)
  | binaryMaths (operation : String)
  | simpleShowMaskRPT
deriving DecidableEq

/-- One `pe.Node(...)` call: a name, an interface configuration, and the
resource hints (`mem_gb`, `n_procs`) the source passes, `none` when the
source omits the keyword. -/
structure NodeSpec where
  name : String
  iface : Iface
  memGb : Option ℚ
  nProcs : Option Nat
deriving DecidableEq

/-- A workflow with no nested sub-workflow (the shape of
`init_enhance_and_skullstrip_bold_wf` and `init_skullstrip_bold_wf`):
a name, member nodes, literal input bindings `(node, input, value)`, and
declared connections. -/
structure FlatWorkflow where
  name : String
  nodes : List NodeSpec
  literals : List (String × String × String)
  connections : List Conn
deriving DecidableEq

/-- A workflow that may embed flat sub-workflows as members (the shape of
`init_bold_reference_wf`, which embeds the enhance-and-skullstrip
workflow).  A connection endpoint naming a sub-workflow uses dotted ports
such as `inputnode.in_file`. -/
structure Workflow where
  name : String
  nodes : List NodeSpec
  subwfs : List FlatWorkflow
  literals : List (String × String × String)
  connections : List Conn
deriving DecidableEq

/-- `DEFAULT_MEMORY_MIN_GB = 0.01` from the source module. -/
def DEFAULT_MEMORY_MIN_GB : ℚ := 1/100

/-- `init_enhance_and_skullstrip_bold_wf(name, omp_nthreads)` translated
from the source: eleven nodes (two identity boundary nodes and nine tool
nodes) and the nineteen declared connections, in source order.  The
`omp_nthreads` argument is accepted but, as in the source body, never
used; `n4_correct` is pinned to `n_procs=1`. -/
def init_enhance_and_skullstrip_bold_wf (name : String) (omp_nthreads : Nat) :
    FlatWorkflow :=
  { name := name
    nodes := [
      ⟨"inputnode", .identityInterface ["in_file"], none, none⟩,
      ⟨"outputnode",
        .identityInterface ["mask_file", "skull_stripped_file", "bias_corrected_file"],
        none, none⟩,
      ⟨"n4_mask", .maskEPI (19/20) 1 true, none, none⟩,
      ⟨"n4_correct", .n4BiasFieldCorrection 3 true, none, some 1⟩,
      ⟨"skullstrip_first_pass", .bet (1/5) true, none, none⟩,
      ⟨"skullstrip_first_dilate",
        .dilateImage "max" "sphere" 6 "char", none, none⟩,
      ⟨"skullstrip_first_mask", .applyMask, none, none⟩,
      ⟨"unifize",
        .unifize true "NIFTI_GZ" "-clfrac 0.2 -rbt 18.3 65.0 90.0" "uni.nii.gz",
        none, none⟩,
      ⟨"fixhdr_unifize", .copyXForm, some (1/10), none⟩,
      ⟨"skullstrip_second_pass", .automask 1 "NIFTI_GZ", none, none⟩,
      ⟨"fixhdr_skullstrip2", .copyXForm, some (1/10), none⟩,
      ⟨"combine_masks", .binaryMaths "mul", none, none⟩,
      ⟨"apply_mask", .applyMask, none, none⟩]
    literals := []
    connections := [
      ⟨"inputnode", "in_file", "n4_mask", "in_files"⟩,
      ⟨"inputnode", "in_file", "n4_correct", "input_image"⟩,
      ⟨"inputnode", "in_file", "fixhdr_unifize", "hdr_file"⟩,
      ⟨"inputnode", "in_file", "fixhdr_skullstrip2", "hdr_file"⟩,
      ⟨"n4_mask", "out_mask", "n4_correct", "mask_image"⟩,
      ⟨"n4_correct", "output_image", "skullstrip_first_pass", "in_file"⟩,
      ⟨"skullstrip_first_pass", "mask_file", "skullstrip_first_dilate", "in_file"⟩,
      ⟨"skullstrip_first_dilate", "out_file", "skullstrip_first_mask", "mask_file"⟩,
      ⟨"skullstrip_first_pass", "out_file", "skullstrip_first_mask", "in_file"⟩,
      ⟨"skullstrip_first_mask", "out_file", "unifize", "in_file"⟩,
      ⟨"unifize", "out_file", "fixhdr_unifize", "in_file"⟩,
      ⟨"fixhdr_unifize", "out_file", "skullstrip_second_pass", "in_file"⟩,
      ⟨"skullstrip_first_pass", "mask_file", "combine_masks", "in_file"⟩,
      ⟨"skullstrip_second_pass", "out_file", "fixhdr_skullstrip2", "in_file"⟩,
      ⟨"fixhdr_skullstrip2", "out_file", "combine_masks", "operand_file"⟩,
      ⟨"fixhdr_unifize", "out_file", "apply_mask", "in_file"⟩,
      ⟨"combine_masks", "out_file", "apply_mask", "mask_file"⟩,
      ⟨"combine_masks", "out_file", "outputnode", "mask_file"⟩,
      ⟨"apply_mask", "out_file", "outputnode", "skull_stripped_file"⟩,
      ⟨"n4_correct", "output_image", "outputnode", "bias_corrected_file"⟩] }

/-- `init_skullstrip_bold_wf(name)` translated from the source: seven
nodes and the eleven declared connections, in source order. -/
def init_skullstrip_bold_wf (name : String) : FlatWorkflow :=
  { name := name
    nodes := [
      ⟨"inputnode", .identityInterface ["in_file"], none, none⟩,
      ⟨"outputnode",
        .identityInterface ["mask_file", "skull_stripped_file", "out_report"],
        none, none⟩,
      ⟨"skullstrip_first_pass", .bet (1/5) true, none, none⟩,
      ⟨"skullstrip_second_pass", .automask 1 "NIFTI_GZ", none, none⟩,
      ⟨"combine_masks", .binaryMaths "mul", none, none⟩,
      ⟨"apply_mask", .applyMask, none, none⟩,
      ⟨"mask_reportlet", .simpleShowMaskRPT, none, none⟩]
    literals := []
    connections := [
      ⟨"inputnode", "in_file", "skullstrip_first_pass", "in_file"⟩,
      ⟨"skullstrip_first_pass", "out_file", "skullstrip_second_pass", "in_file"⟩,
      ⟨"skullstrip_first_pass", "mask_file", "combine_masks", "in_file"⟩,
      ⟨"skullstrip_second_pass", "out_file", "combine_masks", "operand_file"⟩,
      ⟨"combine_masks", "out_file", "outputnode", "mask_file"⟩,
      ⟨"inputnode", "in_file", "apply_mask", "in_file"⟩,
      ⟨"combine_masks", "out_file", "apply_mask", "mask_file"⟩,
      ⟨"apply_mask", "out_file", "outputnode", "skull_stripped_file"⟩,
      ⟨"inputnode", "in_file", "mask_reportlet", "background_file"⟩,
      ⟨"combine_masks", "out_file", "mask_reportlet", "mask_file"⟩,
      ⟨"mask_reportlet", "out_report", "outputnode", "out_report"⟩] }

/-- `init_bold_reference_wf(omp_nthreads, bold_file, name)` translated
from the source: four member nodes, one embedded sub-workflow built by
`init_enhance_and_skullstrip_bold_wf` (with its default name and the
caller's `omp_nthreads`), an optional literal binding of `bold_file` on
the inputnode, and the ten declared connections in source order. -/
def init_bold_reference_wf (omp_nthreads : Nat) (bold_file : Option String)
    (name : String) : Workflow :=
  { name := name
    nodes := [
      ⟨"inputnode", .identityInterface ["bold_file"], none, none⟩,
      ⟨"outputnode",
        .identityInterface ["bold_file", "raw_ref_image", "skip_vols", "ref_image",
          "ref_image_brain", "bold_mask", "validation_report"],
        none, none⟩,
      ⟨"validate", .validateImage, some DEFAULT_MEMORY_MIN_GB, none⟩,
      ⟨"gen_ref", .estimateReferenceImage, some 1, none⟩]
    subwfs :=
      [init_enhance_and_skullstrip_bold_wf "enhance_and_skullstrip_bold_wf"
        omp_nthreads]
    literals :=
      match bold_file with
      | none => []
      | some f => [("inputnode", "bold_file", f)]
    connections := [
      ⟨"inputnode", "bold_file", "validate", "in_file"⟩,
      ⟨"validate", "out_file", "gen_ref", "in_file"⟩,
      ⟨"gen_ref", "ref_image", "enhance_and_skullstrip_bold_wf", "inputnode.in_file"⟩,
      ⟨"validate", "out_file", "outputnode", "bold_file"⟩,
      ⟨"validate", "out_report", "outputnode", "validation_report"⟩,
      ⟨"gen_ref", "ref_image", "outputnode", "raw_ref_image"⟩,
      ⟨"gen_ref", "n_volumes_to_discard", "outputnode", "skip_vols"⟩,
      ⟨"enhance_and_skullstrip_bold_wf", "outputnode.bias_corrected_file",
        "outputnode", "ref_image"⟩,
      ⟨"enhance_and_skullstrip_bold_wf", "outputnode.mask_file",
        "outputnode", "bold_mask"⟩,
      ⟨"enhance_and_skullstrip_bold_wf", "outputnode.skull_stripped_file",
        "outputnode", "ref_image_brain"⟩] }

/-! ## Graph-structural functions over declared connections -/

/-- The names of the immediate members (leaf nodes and embedded
sub-workflows) of a nested workflow. -/
def memberNames (w : Workflow) : List String :=
  w.nodes.map NodeSpec.name ++ w.subwfs.map FlatWorkflow.name

/-- Successor member names of `a` under the declared connections. -/
def succsOf (cs : List Conn) (a : String) : List String :=
  (cs.filter (fun c => c.src == a)).map Conn.dst

/-- `reachesIn cs n a b`: a path of at least one and at most `n`
connections leads from `a` to `b`. -/
def reachesIn (cs : List Conn) : Nat → String → String → Bool
  | 0, _, _ => false
  | n + 1, a, b => (succsOf cs a).any (fun m => m == b || reachesIn cs n m b)

/-- `b` is transitively downstream of `a` via the declared connections
(with fuel `cs.length`, enough for any simple path). -/
def reaches (cs : List Conn) (a b : String) : Bool :=
  reachesIn cs cs.length a b

/-- The source members of the connections feeding member `n`. -/
def feedersOf (cs : List Conn) (n : String) : List String :=
  (cs.filter (fun c => c.dst == n)).map Conn.src

/-- `x` still has an inbound connection from an unscheduled member. -/
def hasIncoming (cs : List Conn) (rem : List String) (x : String) : Bool :=
  cs.any (fun c => c.dst == x && rem.contains c.src)

/-- Kahn's algorithm with explicit fuel: repeatedly schedule the first
remaining member with no inbound connection from a remaining member;
`none` when stuck (a cycle among the remaining members). -/
def topoAux (cs : List Conn) : Nat → List String → List String → Option (List String)
  | _, [], acc => some acc.reverse
  | 0, _ :: _, _ => none
  | fuel + 1, rem, acc =>
    match rem.find? (fun x => !hasIncoming cs rem x) with
    | none => none
    | some x => topoAux cs fuel (rem.erase x) (x :: acc)

/-- Topological sort of the members under the declared connections;
`none` models the planner failing with `CycleDetected`. -/
def topoSort (members : List String) (cs : List Conn) : Option (List String) :=
  topoAux cs members.length members []

/-- The planner succeeds and its order respects every connection's
direction: the source member strictly precedes the destination member. -/
def plansOk (members : List String) (cs : List Conn) : Bool :=
  match topoSort members cs with
  | some ord =>
      cs.all (fun c => ord.indexOf c.src < ord.indexOf c.dst)
  | none => false

/-- The `(destination, destination input)` pairs targeted by a connection
list. -/
def dstTargets (cs : List Conn) : List (String × String) :=
  cs.map (fun c => (c.dst, c.dstPort))

/-- No two entries of the list coincide. -/
def pairsDistinct : List (String × String) → Bool
  | [] => true
  | p :: rest => !rest.contains p && pairsDistinct rest

/-- Every destination input receives at most one inbound connection, so
`connect` never raised `DuplicateInput` while declaring `cs`. -/
def noDuplicateInput (cs : List Conn) : Bool :=
  pairsDistinct (dstTargets cs)

/-- The declared fields of the identity-interface node named `n`, `[]`
when there is no such node or it is not an identity interface. -/
def identityFieldsOf (nodes : List NodeSpec) (n : String) : List String :=
  match nodes.find? (fun s => s.name == n) with
  | some s =>
      match s.iface with
      | .identityInterface fs => fs
      | _ => []
  | none => []

/-- Every connection endpoint lying on the workflow's own `inputnode` or
`outputnode` uses a port declared in that identity node's field list
(for an identity interface the input and output slots are the fields). -/
def boundaryPortsOk (nodes : List NodeSpec) (cs : List Conn) : Bool :=
  cs.all (fun c =>
    (c.src != "inputnode" || (identityFieldsOf nodes "inputnode").contains c.srcPort) &&
    (c.dst != "inputnode" || (identityFieldsOf nodes "inputnode").contains c.dstPort) &&
    (c.src != "outputnode" || (identityFieldsOf nodes "outputnode").contains c.srcPort) &&
    (c.dst != "outputnode" || (identityFieldsOf nodes "outputnode").contains c.dstPort))

/-- Every connection endpoint lying on an embedded sub-workflow uses a
dotted port naming a declared field of that sub-workflow's `inputnode`
(when feeding it) or `outputnode` (when reading it). -/
def subBoundaryPortsOk (w : Workflow) : Bool :=
  w.connections.all (fun c =>
    w.subwfs.all (fun s =>
      (s.name != c.dst ||
        ((identityFieldsOf s.nodes "inputnode").map
          (fun f => "inputnode." ++ f)).contains c.dstPort) &&
      (s.name != c.src ||
        ((identityFieldsOf s.nodes "outputnode").map
          (fun f => "outputnode." ++ f)).contains c.srcPort)))

/-- Number of connections writing into input `f` of member `n`. -/
def writesTo (cs : List Conn) (n f : String) : Nat :=
  (cs.filter (fun c => c.dst == n && c.dstPort == f)).length

/-- No connection of the parent names an internal (non-boundary) node of
the embedded sub-workflow `s` as an endpoint. -/
def noInternalTouch (cs : List Conn) (s : FlatWorkflow) : Bool :=
  let internals := (s.nodes.map NodeSpec.name).filter
    (fun n => n != "inputnode" && n != "outputnode")
  cs.all (fun c => !internals.contains c.src && !internals.contains c.dst)

/-- The `n_procs` resource hint of the node named `n`, `none` when absent
or not set. -/
def nProcsOf (nodes : List NodeSpec) (n : String) : Option Nat :=
  match nodes.find? (fun s => s.name == n) with
  | some s => s.nProcs
  | none => none

/-- The literal value bound at build time to input `p` of node `n`,
`none` when the input is left unresolved. -/
def literalOf (lits : List (String × String × String)) (n p : String) :
    Option String :=
  match lits.find? (fun l => l.1 == n && l.2.1 == p) with
  | some l => some l.2.2
  | none => none

/-! ## The engine's executor and cache, modelled from the spec

The workflow engine (`niworkflows.nipype.pipeline.engine`) is not among
this repository's sources; the definitions below model its executor and
execution cache from the specification. -/

/-- Modelled from the spec: one entry of a planned linear execution
order — a node name together with the upstream members whose outputs it
reads (the engine resolves these from the declared connections when
flattening). -/
structure PlanNode where
  name : String
  deps : List String
deriving DecidableEq

/-- The first bound value for `d` in an environment of produced
outputs. -/
def lookupEnv {V : Type} (e : List (String × V)) (d : String) : Option V :=
  match e.find? (fun p => p.1 == d) with
  | some p => some p.2
  | none => none

/-- The resolved input values of a plan node: its dependencies' outputs
read from the environment. -/
def insOf {V : Type} (e : List (String × V)) (n : PlanNode) : List (Option V) :=
  n.deps.map (lookupEnv e)

/-- Modelled from the spec: the executor's mutable state — the execution
cache keyed by fingerprint `(node identity, resolved input values)`, the
count of actual unit-of-work dispatches, and the environment of outputs
produced so far in this run. -/
structure RunState (V : Type) where
  cache : List ((String × List (Option V)) × V)
  dispatches : Nat
  env : List (String × V)

/-- Cache lookup by fingerprint. -/
def lookupCache {V : Type} [DecidableEq V]
    (c : List ((String × List (Option V)) × V))
    (fp : String × List (Option V)) : Option V :=
  match c.find? (fun p => decide (p.1 = fp)) with
  | some p => some p.2
  | none => none

/-- Modelled from the spec: executing one node — resolve inputs, compute
the fingerprint, and either take the cached result (no dispatch) or
dispatch the unit of work `sem` and record the result in the cache. -/
def runNode {V : Type} [DecidableEq V] (sem : String → List (Option V) → V)
    (st : RunState V) (n : PlanNode) : RunState V :=
  match lookupCache st.cache (n.name, insOf st.env n) with
  | some v => ⟨st.cache, st.dispatches, (n.name, v) :: st.env⟩
  | none =>
      ⟨((n.name, insOf st.env n), sem n.name (insOf st.env n)) :: st.cache,
        st.dispatches + 1,
        (n.name, sem n.name (insOf st.env n)) :: st.env⟩

/-- Modelled from the spec: the executor walks the planned order,
consulting the cache before each dispatch. -/
def runPlan {V : Type} [DecidableEq V] (sem : String → List (Option V) → V) :
    List PlanNode → RunState V → RunState V
  | [], st => st
  | n :: rest, st => runPlan sem rest (runNode sem st n)

/-- The dispatch-free denotation of a run: the environment each node's
execution must produce, by determinism of the units of work. -/
def pureEnv {V : Type} (sem : String → List (Option V) → V) :
    List PlanNode → List (String × V) → List (String × V)
  | [], e => e
  | n :: rest, e => pureEnv sem rest ((n.name, sem n.name (insOf e n)) :: e)

/-- The fingerprints a run computes, in order. -/
def planFps {V : Type} (sem : String → List (Option V) → V) :
    List PlanNode → List (String × V) → List (String × List (Option V))
  | [], _ => []
  | n :: rest, e =>
      (n.name, insOf e n) :: planFps sem rest ((n.name, sem n.name (insOf e n)) :: e)

/-- Every cache entry holds the value the unit of work would produce for
its fingerprint (true of every cache the executor builds, since units of
work are deterministic). -/
def CacheSound {V : Type} (sem : String → List (Option V) → V)
    (c : List ((String × List (Option V)) × V)) : Prop :=
  ∀ p ∈ c, p.2 = sem p.1.1 p.1.2

/-! ## The builders as sequences of engine build-API calls -/

/-- One call of the engine's two-phase API, as the spec divides it: the
structural build-phase calls (`add_node`, `add_subgraph`, `connect`,
literal input assignment) and, for contrast, the run-phase effects
(dispatching a unit of work, touching the execution cache) that the spec
reserves to `run`. -/
inductive BuildStep where
  | addNode (n : NodeSpec)
  | addSubgraph (s : FlatWorkflow)
  | connectPorts (c : Conn)
  | setLiteral (node input value : String)
  | dispatchWork (node : String)
  | cacheAccess (node : String)
deriving DecidableEq

/-- A step is a structural build-phase call. -/
def BuildStep.structural : BuildStep → Bool
  | .addNode _ => true
  | .addSubgraph _ => true
  | .connectPorts _ => true
  | .setLiteral _ _ _ => true
  | .dispatchWork _ => false
  | .cacheAccess _ => false

/-- Modelled from the spec: the executor-side state a run-phase step
would mutate — the dispatch count and the number of execution-cache
operations (the engine's run phase is not part of this repository's
sources). -/
structure EngineState where
  dispatches : Nat
  cacheOps : Nat
deriving DecidableEq

/-- Effect of one step on the executor-side state: only run-phase steps
touch it. -/
def stepEffect (st : EngineState) : BuildStep → EngineState
  | .dispatchWork _ => ⟨st.dispatches + 1, st.cacheOps⟩
  | .cacheAccess _ => ⟨st.dispatches, st.cacheOps + 1⟩
  | .addNode _ => st
  | .addSubgraph _ => st
  | .connectPorts _ => st
  | .setLiteral _ _ _ => st

/-- Effect of one step on the workflow under construction: structural
calls append to the corresponding component, run-phase steps build
nothing. -/
def applyStep (w : Workflow) : BuildStep → Workflow
  | .addNode n => ⟨w.name, w.nodes ++ [n], w.subwfs, w.literals, w.connections⟩
  | .addSubgraph s => ⟨w.name, w.nodes, w.subwfs ++ [s], w.literals, w.connections⟩
  | .setLiteral n i v =>
      ⟨w.name, w.nodes, w.subwfs, w.literals ++ [(n, i, v)], w.connections⟩
  | .connectPorts c => ⟨w.name, w.nodes, w.subwfs, w.literals, w.connections ++ [c]⟩
  | .dispatchWork _ => w
  | .cacheAccess _ => w

/-- `pe.Workflow(name=name)`: the freshly created empty workflow each
builder body starts from. -/
def emptyWorkflow (name : String) : Workflow := ⟨name, [], [], [], []⟩

/-- View of a flat workflow as a nested workflow with no
sub-workflows. -/
def FlatWorkflow.toWorkflow (w : FlatWorkflow) : Workflow :=
  ⟨w.name, w.nodes, [], w.literals, w.connections⟩

/-- The engine-API calls a builder body makes, read off the built
workflow (grouped by kind — node creations, sub-workflow embeds, literal
input assignments, connection declarations — each group in source
order).  Every statement of the three Python builder bodies is one of
these four structural calls. -/
def builderSteps (w : Workflow) : List BuildStep :=
  w.nodes.map BuildStep.addNode ++ w.subwfs.map BuildStep.addSubgraph
    ++ w.literals.map (fun l => BuildStep.setLiteral l.1 l.2.1 l.2.2)
    ++ w.connections.map BuildStep.connectPorts

/-! ## Build-step lemmas -/

theorem stepEffect_structural (st : EngineState) (s : BuildStep)
    (h : s.structural = true) : stepEffect st s = st := by
  cases s <;> first | rfl | simp [BuildStep.structural] at h

theorem foldl_stepEffect (steps : List BuildStep)
    (h : steps.all BuildStep.structural = true) :
    ∀ st : EngineState, steps.foldl stepEffect st = st := by
  induction steps with
  | nil => intro st; rfl
  | cons s rest ih =>
      rw [List.all_cons, Bool.and_eq_true] at h
      intro st
      rw [List.foldl_cons, stepEffect_structural st s h.1, ih h.2]

theorem all_structural_map {α : Type} (f : α → BuildStep)
    (hf : ∀ a, (f a).structural = true) (l : List α) :
    (l.map f).all BuildStep.structural = true := by
  induction l with
  | nil => rfl
  | cons a l ih => simp [List.all_cons, hf a, ih]

theorem builderSteps_structural (w : Workflow) :
    (builderSteps w).all BuildStep.structural = true := by
  have h₁ := all_structural_map BuildStep.addNode (fun a => rfl) w.nodes
  have h₂ := all_structural_map BuildStep.addSubgraph (fun a => rfl) w.subwfs
  have h₃ := all_structural_map
    (fun l : String × String × String => BuildStep.setLiteral l.1 l.2.1 l.2.2)
    (fun a => rfl) w.literals
  have h₄ := all_structural_map BuildStep.connectPorts (fun a => rfl) w.connections
  rw [builderSteps, List.all_append, List.all_append, List.all_append,
    h₁, h₂, h₃, h₄]
  rfl

theorem foldl_addNodes (xs : List NodeSpec) :
    ∀ w : Workflow, (xs.map BuildStep.addNode).foldl applyStep w
      = ⟨w.name, w.nodes ++ xs, w.subwfs, w.literals, w.connections⟩ := by
  induction xs with
  | nil => intro w; simp
  | cons x xs ih =>
      intro w
      rw [List.map_cons, List.foldl_cons]
      show (xs.map BuildStep.addNode).foldl applyStep
        ⟨w.name, w.nodes ++ [x], w.subwfs, w.literals, w.connections⟩ = _
      rw [ih]
      simp

theorem foldl_addSubgraphs (xs : List FlatWorkflow) :
    ∀ w : Workflow, (xs.map BuildStep.addSubgraph).foldl applyStep w
      = ⟨w.name, w.nodes, w.subwfs ++ xs, w.literals, w.connections⟩ := by
  induction xs with
  | nil => intro w; simp
  | cons x xs ih =>
      intro w
      rw [List.map_cons, List.foldl_cons]
      show (xs.map BuildStep.addSubgraph).foldl applyStep
        ⟨w.name, w.nodes, w.subwfs ++ [x], w.literals, w.connections⟩ = _
      rw [ih]
      simp

theorem foldl_setLiterals (xs : List (String × String × String)) :
    ∀ w : Workflow,
      (xs.map (fun l => BuildStep.setLiteral l.1 l.2.1 l.2.2)).foldl applyStep w
      = ⟨w.name, w.nodes, w.subwfs, w.literals ++ xs, w.connections⟩ := by
  induction xs with
  | nil => intro w; simp
  | cons x xs ih =>
      intro w
      rw [List.map_cons, List.foldl_cons]
      show (xs.map (fun l => BuildStep.setLiteral l.1 l.2.1 l.2.2)).foldl applyStep
        ⟨w.name, w.nodes, w.subwfs, w.literals ++ [(x.1, x.2.1, x.2.2)], w.connections⟩ = _
      rw [ih]
      simp

theorem foldl_connects (xs : List Conn) :
    ∀ w : Workflow, (xs.map BuildStep.connectPorts).foldl applyStep w
      = ⟨w.name, w.nodes, w.subwfs, w.literals, w.connections ++ xs⟩ := by
  induction xs with
  | nil => intro w; simp
  | cons x xs ih =>
      intro w
      rw [List.map_cons, List.foldl_cons]
      show (xs.map BuildStep.connectPorts).foldl applyStep
        ⟨w.name, w.nodes, w.subwfs, w.literals, w.connections ++ [x]⟩ = _
      rw [ih]
      simp

theorem builderSteps_reconstruct (nm : String) (w : Workflow) (h : w.name = nm) :
    (builderSteps w).foldl applyStep (emptyWorkflow nm) = w := by
  subst h
  rw [builderSteps, List.foldl_append, List.foldl_append, List.foldl_append,
    foldl_addNodes, foldl_addSubgraphs, foldl_setLiterals, foldl_connects]
  simp [emptyWorkflow]

/-! ## Engine lemmas (cache soundness, monotonicity, determinism) -/

theorem lookupCache_mem {V : Type} [DecidableEq V]
    {c : List ((String × List (Option V)) × V)} {fp : String × List (Option V)}
    {v : V} (h : lookupCache c fp = some v) : (fp, v) ∈ c := by
  unfold lookupCache at h
  cases hf : c.find? (fun p => decide (p.1 = fp)) with
  | none => simp [hf] at h
  | some p =>
      simp only [hf, Option.some.injEq] at h
      have hp0 := List.find?_some hf
      have hp : p.1 = fp := of_decide_eq_true hp0
      have hm := List.mem_of_find?_eq_some hf
      rw [← hp, ← h]
      exact hm

theorem lookupCache_of_mem {V : Type} [DecidableEq V]
    {c : List ((String × List (Option V)) × V)} {fp : String × List (Option V)}
    {v : V} (h : (fp, v) ∈ c) : ∃ w, lookupCache c fp = some w := by
  unfold lookupCache
  cases hf : c.find? (fun p => decide (p.1 = fp)) with
  | some p => exact ⟨p.2, by simp [hf]⟩
  | none =>
      have := List.find?_eq_none.mp hf (fp, v) h
      simp at this

theorem runNode_env {V : Type} [DecidableEq V] (sem : String → List (Option V) → V)
    (st : RunState V) (n : PlanNode) (hs : CacheSound sem st.cache) :
    (runNode sem st n).env = (n.name, sem n.name (insOf st.env n)) :: st.env := by
  unfold runNode
  cases hl : lookupCache st.cache (n.name, insOf st.env n) with
  | none => simp
  | some v =>
      have hv := hs _ (lookupCache_mem hl)
      simp only at hv
      simp [hv]

theorem runNode_sound {V : Type} [DecidableEq V] (sem : String → List (Option V) → V)
    (st : RunState V) (n : PlanNode) (hs : CacheSound sem st.cache) :
    CacheSound sem (runNode sem st n).cache := by
  unfold runNode
  cases hl : lookupCache st.cache (n.name, insOf st.env n) with
  | some v => simpa using hs
  | none =>
      intro p hp
      rcases List.mem_cons.mp hp with h | h
      · subst h; rfl
      · exact hs _ h

theorem runNode_mono {V : Type} [DecidableEq V] (sem : String → List (Option V) → V)
    (st : RunState V) (n : PlanNode) {p : (String × List (Option V)) × V}
    (h : p ∈ st.cache) : p ∈ (runNode sem st n).cache := by
  unfold runNode
  cases hl : lookupCache st.cache (n.name, insOf st.env n) with
  | some v => simpa using h
  | none => exact List.mem_cons_of_mem _ h

theorem runNode_fp_mem {V : Type} [DecidableEq V] (sem : String → List (Option V) → V)
    (st : RunState V) (n : PlanNode) (hs : CacheSound sem st.cache) :
    ((n.name, insOf st.env n), sem n.name (insOf st.env n)) ∈ (runNode sem st n).cache := by
  unfold runNode
  cases hl : lookupCache st.cache (n.name, insOf st.env n) with
  | some v =>
      have hv := hs _ (lookupCache_mem hl)
      simp only at hv
      simpa [← hv] using lookupCache_mem hl
  | none => exact List.mem_cons_self _ _

theorem runNode_hit {V : Type} [DecidableEq V] (sem : String → List (Option V) → V)
    (st : RunState V) (n : PlanNode) (hs : CacheSound sem st.cache)
    (hm : ((n.name, insOf st.env n), sem n.name (insOf st.env n)) ∈ st.cache) :
    runNode sem st n
      = ⟨st.cache, st.dispatches, (n.name, sem n.name (insOf st.env n)) :: st.env⟩ := by
  obtain ⟨w, hw⟩ := lookupCache_of_mem hm
  have hv := hs _ (lookupCache_mem hw)
  simp only at hv
  unfold runNode
  rw [hw, hv]

theorem runPlan_sound {V : Type} [DecidableEq V] (sem : String → List (Option V) → V)
    (order : List PlanNode) :
    ∀ st : RunState V, CacheSound sem st.cache →
      CacheSound sem (runPlan sem order st).cache := by
  induction order with
  | nil => intro st hs; exact hs
  | cons n rest ih => intro st hs; exact ih _ (runNode_sound sem st n hs)

theorem runPlan_env {V : Type} [DecidableEq V] (sem : String → List (Option V) → V)
    (order : List PlanNode) :
    ∀ st : RunState V, CacheSound sem st.cache →
      (runPlan sem order st).env = pureEnv sem order st.env := by
  induction order with
  | nil => intro st _; rfl
  | cons n rest ih =>
      intro st hs
      have h := ih (runNode sem st n) (runNode_sound sem st n hs)
      rw [runPlan, h, runNode_env sem st n hs, pureEnv]

theorem runPlan_mono {V : Type} [DecidableEq V] (sem : String → List (Option V) → V)
    (order : List PlanNode) :
    ∀ (st : RunState V) (p : (String × List (Option V)) × V),
      p ∈ st.cache → p ∈ (runPlan sem order st).cache := by
  induction order with
  | nil => intro st p h; exact h
  | cons n rest ih => intro st p h; exact ih _ _ (runNode_mono sem st n h)

theorem runPlan_fps_mem {V : Type} [DecidableEq V] (sem : String → List (Option V) → V)
    (order : List PlanNode) :
    ∀ st : RunState V, CacheSound sem st.cache →
      ∀ fp ∈ planFps sem order st.env,
        (fp, sem fp.1 fp.2) ∈ (runPlan sem order st).cache := by
  induction order with
  | nil => intro st _ fp hfp; simp [planFps] at hfp
  | cons n rest ih =>
      intro st hs fp hfp
      rw [planFps] at hfp
      rcases List.mem_cons.mp hfp with h | h
      · subst h
        exact runPlan_mono sem rest _ _ (runNode_fp_mem sem st n hs)
      · have hs' := runNode_sound sem st n hs
        have henv := runNode_env sem st n hs
        exact ih (runNode sem st n) hs' fp (by rw [henv]; exact h)

theorem runPlan_allHit {V : Type} [DecidableEq V] (sem : String → List (Option V) → V)
    (order : List PlanNode) :
    ∀ st : RunState V, CacheSound sem st.cache →
      (∀ fp ∈ planFps sem order st.env, (fp, sem fp.1 fp.2) ∈ st.cache) →
      runPlan sem order st = ⟨st.cache, st.dispatches, pureEnv sem order st.env⟩ := by
  induction order with
  | nil => intro st _ _; rfl
  | cons n rest ih =>
      intro st hs hc
      have hm : ((n.name, insOf st.env n), sem n.name (insOf st.env n)) ∈ st.cache :=
        hc _ (by rw [planFps]; exact List.mem_cons_self _ _)
      rw [runPlan, runNode_hit sem st n hs hm]
      have hrest : ∀ fp ∈ planFps sem rest
          ((n.name, sem n.name (insOf st.env n)) :: st.env),
          (fp, sem fp.1 fp.2) ∈ st.cache := by
        intro fp hfp
        exact hc fp (by rw [planFps]; exact List.mem_cons_of_mem _ hfp)
      have := ih ⟨st.cache, st.dispatches,
        (n.name, sem n.name (insOf st.env n)) :: st.env⟩ hs hrest
      rw [this, pureEnv]

/-! ## Claim theorems -/

/-- Claim C1, counterexample: the claim asserts that in
`init_enhance_and_skullstrip_bold_wf` and `init_skullstrip_bold_wf`
neither of the two nodes feeding `combine_masks` transitively depends on
the other via the declared connections.  At the concrete default-named
workflows this is false: in both, the second feeder transitively depends
on `skullstrip_first_pass` (in the enhance workflow through
`skullstrip_first_mask → unifize → fixhdr_unifize →
skullstrip_second_pass → fixhdr_skullstrip2`; in the skullstrip workflow
through the direct edge to `skullstrip_second_pass`). -/
theorem C1_counterexample :
    (feedersOf (init_enhance_and_skullstrip_bold_wf
        "enhance_and_skullstrip_bold_wf" 1).connections "combine_masks"
      = ["skullstrip_first_pass", "fixhdr_skullstrip2"]) ∧
    (reaches (init_enhance_and_skullstrip_bold_wf
        "enhance_and_skullstrip_bold_wf" 1).connections
      "skullstrip_first_pass" "fixhdr_skullstrip2" = true) ∧
    (feedersOf (init_skullstrip_bold_wf "skullstrip_bold_wf").connections
        "combine_masks"
      = ["skullstrip_first_pass", "skullstrip_second_pass"]) ∧
    (reaches (init_skullstrip_bold_wf "skullstrip_bold_wf").connections
      "skullstrip_first_pass" "skullstrip_second_pass" = true) := by
  refine ⟨by decide, by decide, by decide, by decide⟩

/-- Claim C1 as amended: in both workflows the two branches into
`combine_masks` are not mutually independent — an ordering dependency
between them does exist, but it is explicitly declared and runs in one
direction only: the feeder on the Automask branch transitively depends
on `skullstrip_first_pass`, while `skullstrip_first_pass` does not
depend on the Automask-branch feeder, so the recombination is
deterministically ordered by the declared connections alone. -/
theorem C1_amended_ordering (n₁ n₂ : String) (omp : Nat) :
    (feedersOf (init_enhance_and_skullstrip_bold_wf n₁ omp).connections
        "combine_masks"
      = ["skullstrip_first_pass", "fixhdr_skullstrip2"]) ∧
    (reaches (init_enhance_and_skullstrip_bold_wf n₁ omp).connections
      "skullstrip_first_pass" "fixhdr_skullstrip2" = true) ∧
    (reaches (init_enhance_and_skullstrip_bold_wf n₁ omp).connections
      "fixhdr_skullstrip2" "skullstrip_first_pass" = false) ∧
    (feedersOf (init_skullstrip_bold_wf n₂).connections "combine_masks"
      = ["skullstrip_first_pass", "skullstrip_second_pass"]) ∧
    (reaches (init_skullstrip_bold_wf n₂).connections
      "skullstrip_first_pass" "skullstrip_second_pass" = true) ∧
    (reaches (init_skullstrip_bold_wf n₂).connections
      "skullstrip_second_pass" "skullstrip_first_pass" = false) := by
  refine ⟨rfl, rfl, rfl, rfl, rfl, rfl⟩

/-- Claim C3: for every choice of arguments, each of the three workflows
induces an acyclic graph over its members and declared connections —
Kahn's algorithm succeeds and its order respects every connection's
direction, so planning never fails with `CycleDetected`. -/
theorem C3_acyclic_planning (omp : Nat) (bf : Option String) (n₁ n₂ n₃ : String) :
    (plansOk (memberNames (init_bold_reference_wf omp bf n₁))
      (init_bold_reference_wf omp bf n₁).connections = true) ∧
    (plansOk ((init_enhance_and_skullstrip_bold_wf n₂ omp).nodes.map NodeSpec.name)
      (init_enhance_and_skullstrip_bold_wf n₂ omp).connections = true) ∧
    (plansOk ((init_skullstrip_bold_wf n₃).nodes.map NodeSpec.name)
      (init_skullstrip_bold_wf n₃).connections = true) := by
  refine ⟨rfl, rfl, rfl⟩

/-- Claim C4: in each of the three builders' declared connection sets,
every `(destination node, destination input)` pair receives at most one
inbound connection, so building never fails with `DuplicateInput`; in
particular the multiple edges into `fixhdr_unifize`,
`skullstrip_first_mask` (the BET mask application), `combine_masks` and
`apply_mask` land on pairwise distinct input names. -/
theorem C4_no_duplicate_input (omp : Nat) (bf : Option String) (n₁ n₂ n₃ : String) :
    (noDuplicateInput (init_bold_reference_wf omp bf n₁).connections = true) ∧
    (noDuplicateInput (init_enhance_and_skullstrip_bold_wf n₂ omp).connections = true) ∧
    (noDuplicateInput (init_skullstrip_bold_wf n₃).connections = true) := by
  refine ⟨rfl, rfl, rfl⟩

/-- Claim C5: every port a declared connection uses on an identity
boundary node (`inputnode`/`outputnode` of each of the three workflows,
including the dotted boundary ports of the embedded sub-workflow) is
declared in that node's field list, so `connect` never fails with
`UnknownPort` on a boundary endpoint; and each of the seven `outputnode`
fields of `init_bold_reference_wf` is written by exactly one connection
(the one naming it). -/
theorem C5_boundary_ports (omp : Nat) (bf : Option String) (n₁ n₂ n₃ : String) :
    (boundaryPortsOk (init_bold_reference_wf omp bf n₁).nodes
      (init_bold_reference_wf omp bf n₁).connections = true) ∧
    (subBoundaryPortsOk (init_bold_reference_wf omp bf n₁) = true) ∧
    (boundaryPortsOk (init_enhance_and_skullstrip_bold_wf n₂ omp).nodes
      (init_enhance_and_skullstrip_bold_wf n₂ omp).connections = true) ∧
    (boundaryPortsOk (init_skullstrip_bold_wf n₃).nodes
      (init_skullstrip_bold_wf n₃).connections = true) ∧
    ((identityFieldsOf (init_bold_reference_wf omp bf n₁).nodes "outputnode").all
      (fun f => writesTo (init_bold_reference_wf omp bf n₁).connections
        "outputnode" f == 1) = true) ∧
    ((identityFieldsOf (init_bold_reference_wf omp bf n₁).nodes "outputnode").length
      = 7) := by
  refine ⟨rfl, rfl, rfl, rfl, rfl, rfl⟩

/-- Claim C6: `init_bold_reference_wf` embeds the enhance-and-skullstrip
workflow opaquely: every parent connection into the sub-workflow targets
its designated `inputnode.in_file`, every connection out of it reads one
of its designated `outputnode` fields (`bias_corrected_file`,
`mask_file`, `skull_stripped_file`), and no parent connection names an
internal node of the sub-workflow. -/
theorem C6_opaque_embedding (omp : Nat) (bf : Option String) (n : String) :
    (((init_bold_reference_wf omp bf n).connections.filter
        (fun c => c.dst == "enhance_and_skullstrip_bold_wf")).all
      (fun c => c.dstPort == "inputnode.in_file") = true) ∧
    (((init_bold_reference_wf omp bf n).connections.filter
        (fun c => c.src == "enhance_and_skullstrip_bold_wf")).map Conn.srcPort
      = ["outputnode.bias_corrected_file", "outputnode.mask_file",
         "outputnode.skull_stripped_file"]) ∧
    ((init_bold_reference_wf omp bf n).subwfs.all
      (fun s => noInternalTouch (init_bold_reference_wf omp bf n).connections s)
      = true) := by
  refine ⟨rfl, rfl, rfl⟩

/-- Claim C8: for every choice of arguments, the `outputnode` of
`init_enhance_and_skullstrip_bold_wf` declares exactly the three fields
`mask_file`, `skull_stripped_file`, `bias_corrected_file` — in
particular no `out_report` field — and each of the three is written by
exactly one declared connection. -/
theorem C8_enhance_outputs (n : String) (omp : Nat) :
    (identityFieldsOf (init_enhance_and_skullstrip_bold_wf n omp).nodes "outputnode"
      = ["mask_file", "skull_stripped_file", "bias_corrected_file"]) ∧
    ((identityFieldsOf (init_enhance_and_skullstrip_bold_wf n omp).nodes
        "outputnode").contains "out_report" = false) ∧
    ((identityFieldsOf (init_enhance_and_skullstrip_bold_wf n omp).nodes
        "outputnode").all
      (fun f => writesTo (init_enhance_and_skullstrip_bold_wf n omp).connections
        "outputnode" f == 1) = true) := by
  refine ⟨rfl, rfl, rfl⟩

/-- Claim C9: `omp_nthreads` influences nothing in the workflow built by
`init_enhance_and_skullstrip_bold_wf` — any two values yield identical
workflows (same nodes, connections, literals and resource hints) — and
the `n4_correct` node's concurrency degree is pinned to one process. -/
theorem C9_omp_nthreads_irrelevant (n : String) (a b : Nat) :
    (init_enhance_and_skullstrip_bold_wf n a
      = init_enhance_and_skullstrip_bold_wf n b) ∧
    (nProcsOf (init_enhance_and_skullstrip_bold_wf n a).nodes "n4_correct"
      = some 1) := by
  refine ⟨rfl, rfl⟩

/-- Claim C10: in `init_bold_reference_wf`, passing `bold_file = none`
leaves the inputnode's `bold_file` input unresolved while
`bold_file = some f` binds it to the literal `f`; in both cases the
member nodes, embedded sub-workflow, connections (and hence all resource
hints, which live on the nodes) are identical. -/
theorem C10_bold_file_literal (omp : Nat) (f n : String) :
    (literalOf (init_bold_reference_wf omp none n).literals
      "inputnode" "bold_file" = none) ∧
    (literalOf (init_bold_reference_wf omp (some f) n).literals
      "inputnode" "bold_file" = some f) ∧
    ((init_bold_reference_wf omp none n).nodes
      = (init_bold_reference_wf omp (some f) n).nodes) ∧
    ((init_bold_reference_wf omp none n).subwfs
      = (init_bold_reference_wf omp (some f) n).subwfs) ∧
    ((init_bold_reference_wf omp none n).connections
      = (init_bold_reference_wf omp (some f) n).connections) ∧
    ((init_bold_reference_wf omp none n).name
      = (init_bold_reference_wf omp (some f) n).name) := by
  refine ⟨rfl, rfl, rfl, rfl, rfl, rfl⟩

/-- Claim C2: the executor modelled from the spec is idempotent — for
every plan, unit-of-work semantics and initial inputs, a second run with
identical inputs starting from the first run's cache produces identical
outputs, performs zero actual unit-of-work dispatches (every node is a
cache hit), and leaves the cache unchanged. -/
theorem C2_run_idempotent {V : Type} [DecidableEq V]
    (sem : String → List (Option V) → V) (order : List PlanNode)
    (e : List (String × V)) :
    ((runPlan sem order ⟨(runPlan sem order ⟨[], 0, e⟩).cache, 0, e⟩).env
      = (runPlan sem order ⟨[], 0, e⟩).env) ∧
    ((runPlan sem order ⟨(runPlan sem order ⟨[], 0, e⟩).cache, 0, e⟩).dispatches
      = 0) ∧
    ((runPlan sem order ⟨(runPlan sem order ⟨[], 0, e⟩).cache, 0, e⟩).cache
      = (runPlan sem order ⟨[], 0, e⟩).cache) := by
  have hs0 : CacheSound sem ([] : List ((String × List (Option V)) × V)) := by
    intro p hp
    simp at hp
  have hs1 : CacheSound sem (runPlan sem order ⟨[], 0, e⟩).cache :=
    runPlan_sound sem order _ hs0
  have hcov : ∀ fp ∈ planFps sem order e,
      (fp, sem fp.1 fp.2) ∈ (runPlan sem order ⟨[], 0, e⟩).cache :=
    runPlan_fps_mem sem order ⟨[], 0, e⟩ hs0
  have h2 := runPlan_allHit sem order
    ⟨(runPlan sem order ⟨[], 0, e⟩).cache, 0, e⟩ hs1 hcov
  have h1 := runPlan_env sem order ⟨[], 0, e⟩ hs0
  rw [h2]
  exact ⟨h1.symm, rfl, rfl⟩

/-- Claim C7: each of the three builders performs no execution — every
engine-API call its body makes is a structural build-phase call, the
calls leave any executor-side state (dispatch count, cache operations)
unchanged, and replaying them from the empty workflow reconstructs
exactly the returned workflow. -/
theorem C7_builders_no_execution (omp : Nat) (bf : Option String)
    (n₁ n₂ n₃ : String) (st : EngineState) :
    ((builderSteps (init_bold_reference_wf omp bf n₁)).all
      BuildStep.structural = true) ∧
    ((builderSteps (init_bold_reference_wf omp bf n₁)).foldl stepEffect st = st) ∧
    ((builderSteps (init_bold_reference_wf omp bf n₁)).foldl applyStep
      (emptyWorkflow n₁) = init_bold_reference_wf omp bf n₁) ∧
    ((builderSteps (init_enhance_and_skullstrip_bold_wf n₂ omp).toWorkflow).all
      BuildStep.structural = true) ∧
    ((builderSteps (init_enhance_and_skullstrip_bold_wf n₂ omp).toWorkflow).foldl
      stepEffect st = st) ∧
    ((builderSteps (init_enhance_and_skullstrip_bold_wf n₂ omp).toWorkflow).foldl
      applyStep (emptyWorkflow n₂)
      = (init_enhance_and_skullstrip_bold_wf n₂ omp).toWorkflow) ∧
    ((builderSteps (init_skullstrip_bold_wf n₃).toWorkflow).all
      BuildStep.structural = true) ∧
    ((builderSteps (init_skullstrip_bold_wf n₃).toWorkflow).foldl
      stepEffect st = st) ∧
    ((builderSteps (init_skullstrip_bold_wf n₃).toWorkflow).foldl
      applyStep (emptyWorkflow n₃)
      = (init_skullstrip_bold_wf n₃).toWorkflow) := by
  refine ⟨builderSteps_structural _,
    foldl_stepEffect _ (builderSteps_structural _) st,
    builderSteps_reconstruct n₁ _ rfl,
    builderSteps_structural _,
    foldl_stepEffect _ (builderSteps_structural _) st,
    builderSteps_reconstruct n₂ _ rfl,
    builderSteps_structural _,
    foldl_stepEffect _ (builderSteps_structural _) st,
    builderSteps_reconstruct n₃ _ rfl⟩
